import Mathlib

/-!
# Verification of the HustleYourCity summary engine

Shallow embedding of `src/type_status_response_summary.py`: the record
loader (`load_export_readonly`), the ISO-timestamp helper
(`parse_datetime_iso`), the per-type aggregator (`summarize_by_type`),
the window selection performed in `main`, and the atomic writer
(`write_json_atomically`).

Modelling conventions:
* A parsed timestamp is a pair of its count of whole seconds since the
  Unix epoch (an `Int`; for an offset-less string, the wall-clock
  reading) and an awareness flag: `true` when the string carried a UTC
  offset, `false` for a naive (offset-less) string, exactly as
  `datetime.fromisoformat` distinguishes aware from naive results.
  Python raises `TypeError` on every ordering comparison between a
  naive and an aware datetime; that uncaught error path is modelled by
  `Except Unit`-valued comparison, selection and aggregation functions
  (`ltDatetime`, `withinWindowE`, `windowsOfE`, `summarize_by_type_E`),
  with `Except.error ()` standing for the propagating `TypeError`.
  `parse_datetime_iso` is the instant projection of the parse (naive
  read with the data model's naive-UTC convention); the total functions
  built on it (`withinWindow`, `updateEntry`, …) describe the program
  on its non-raising domain and are tied to the raising versions by
  agreement lemmas.
* Python's `datetime.fromisoformat` (after the code's replacement of
  every `"Z"` by `"+00:00"`) is modelled by `parseISODateTime` on the
  grammar `YYYY-MM-DD[<any separator char>HH[:MM[:SS]]][±HH:MM]`, with
  calendar and range validation as `datetime` performs it (years
  1–9999, valid month lengths, leap years, hour/minute/second bounds).
  Sub-second fractions, basic-format (dash-less) dates and offsets
  with second precision are not modelled: a string carrying them counts
  as unparseable here, which only shrinks the set of parseable strings
  and leaves every claim conditioned on the parse result unchanged.
* Response times and their averages are exact rationals; the code's
  double-precision `sum/len` is modelled by exact `sum / length`.
* Python dicts (`defaultdict`, `Counter`) are insertion-ordered
  association lists: an existing key is updated in place, a new key is
  appended at the end, exactly as CPython preserves insertion order.
-/

/-- One service-request record, with the four fields the summary engine
reads via `rec.get(...)`; `none` models an absent key and `some ""` an
empty string (both falsy in Python). -/
structure Record where
  type : Option String
  status : Option String
  createddate : Option String
  closeddate : Option String
deriving DecidableEq

/-! ## Timestamp parsing (`parse_datetime_iso`) -/

/-- Value of a decimal digit character, `none` on a non-digit. -/
def digitVal (c : Char) : Option Nat :=
  if '0' ≤ c ∧ c ≤ '9' then some (c.toNat - 48) else none

/-- Read exactly `n` decimal digits, returning their value and the rest. -/
def readDigitsAux : Nat → Nat → List Char → Option (Nat × List Char)
  | 0, acc, cs => some (acc, cs)
  | n + 1, acc, c :: cs =>
      match digitVal c with
      | some d => readDigitsAux n (acc * 10 + d) cs
      | none => none
  | _ + 1, _, [] => none

def readDigits (n : Nat) (cs : List Char) : Option (Nat × List Char) :=
  readDigitsAux n 0 cs

/-- Consume one expected character. -/
def expectChar (c : Char) : List Char → Option (List Char)
  | c' :: cs => if c' = c then some cs else none
  | [] => none

/-- Gregorian leap-year rule, as `datetime` applies it. -/
def isLeap (y : Nat) : Bool :=
  y % 4 = 0 && (y % 100 ≠ 0 || y % 400 = 0)

/-- Length of month `m` in year `y`. -/
def daysInMonth (y m : Nat) : Nat :=
  if m = 2 then (if isLeap y then 29 else 28)
  else if m = 4 ∨ m = 6 ∨ m = 9 ∨ m = 11 then 30
  else 31

/-- Days from 1970-01-01 to year `y`, month `m`, day `d` (proleptic
Gregorian; Howard Hinnant's `days_from_civil`, valid for the `datetime`
year range 1–9999). -/
def daysFromCivil (y m d : Nat) : Int :=
  let y' := if m ≤ 2 then y - 1 else y
  let era := y' / 400
  let yoe := y' % 400
  let mp := (m + 9) % 12
  let doy := (153 * mp + 2) / 5 + (d - 1)
  let doe := yoe * 365 + yoe / 4 - yoe / 100 + doy
  (era * 146097 + doe : Int) - 719468

/-- Time of day `HH[:MM[:SS]]` as seconds into the day (hour-only and
hour-minute times are accepted, as `fromisoformat` accepts them). -/
def parseTime (cs : List Char) : Option (Nat × List Char) := do
  let (h, cs) ← readDigits 2 cs
  match cs with
  | ':' :: cs₁ => do
      let (mi, cs₂) ← readDigits 2 cs₁
      match cs₂ with
      | ':' :: cs₃ => do
          let (s, cs₄) ← readDigits 2 cs₃
          if h ≤ 23 ∧ mi ≤ 59 ∧ s ≤ 59 then some (h * 3600 + mi * 60 + s, cs₄) else none
      | _ => if h ≤ 23 ∧ mi ≤ 59 then some (h * 3600 + mi * 60, cs₂) else none
  | _ => if h ≤ 23 then some (h * 3600, cs) else none

/-- UTC offset `±HH:MM` consuming the whole remainder; an empty
remainder means the string was naive (`some none`). -/
def parseOffset (cs : List Char) : Option (Option Int) :=
  match cs with
  | [] => some none
  | sign :: cs' =>
    if sign = '+' ∨ sign = '-' then do
      let (oh, cs₁) ← readDigits 2 cs'
      let cs₂ ← expectChar ':' cs₁
      let (om, cs₃) ← readDigits 2 cs₂
      if cs₃ = [] ∧ oh ≤ 23 ∧ om ≤ 59 then
        some (some (if sign = '-' then -((oh * 3600 + om * 60 : Nat) : Int)
                    else ((oh * 3600 + om * 60 : Nat) : Int)))
      else none
    else none

/-- Model of `datetime.fromisoformat` on the grammar above: the instant
in epoch seconds (the wall-clock reading for a naive string) together
with the awareness flag (`true` when the string carried an offset).
The date-time separator is any single character, as `fromisoformat`
allows. -/
def parseISODateTime (cs : List Char) : Option (Int × Bool) := do
  let (y, cs) ← readDigits 4 cs
  let cs ← expectChar '-' cs
  let (mo, cs) ← readDigits 2 cs
  let cs ← expectChar '-' cs
  let (d, cs) ← readDigits 2 cs
  if 1 ≤ y ∧ 1 ≤ mo ∧ mo ≤ 12 ∧ 1 ≤ d ∧ d ≤ daysInMonth y mo then
    match cs with
    | [] => some (daysFromCivil y mo d * 86400, false)
    | _sep :: cs' => do
        let (secs, cs'') ← parseTime cs'
        let off ← parseOffset cs''
        match off with
        | none => some (daysFromCivil y mo d * 86400 + (secs : Int), false)
        | some o => some (daysFromCivil y mo d * 86400 + (secs : Int) - o, true)
  else none

/-- Model of `s.replace("Z", "+00:00")`: every `'Z'` becomes `"+00:00"`. -/
def replaceZ (cs : List Char) : List Char :=
  cs.foldr (fun c acc =>
    if c = 'Z' then '+' :: '0' :: '0' :: ':' :: '0' :: '0' :: acc else c :: acc) []

/-- The helper `parse_datetime_iso(s)` with the awareness of its result
retained: `None` and `""` (falsy) yield `None`; otherwise parse the
`Z`-replaced string, `None` on any failure.  This is the model of the
source function itself, whose result is a naive or aware `datetime`. -/
def parse_datetime_aware (s : Option String) : Option (Int × Bool) :=
  match s with
  | none => none
  | some str => if str = "" then none else parseISODateTime (replaceZ str.data)

/-- The instant view of `parse_datetime_iso`: the parsed datetime with a
naive result read by the data model's naive-UTC convention.  The total
selection and aggregation functions below are built on this view and
describe the program on the domain where no naive/aware comparison
raises; the raising behaviour is modelled separately. -/
def parse_datetime_iso (s : Option String) : Option Int :=
  (parse_datetime_aware s).map Prod.fst

/-- Ordering `a < b` on parsed datetimes as Python evaluates it: between
two naive or two aware values it compares the instants, and a mixed
pair raises `TypeError` (`Except.error ()`). -/
def ltDatetime (a b : Int × Bool) : Except Unit Bool :=
  if a.2 = b.2 then Except.ok (decide (a.1 < b.1)) else Except.error ()

/-- Ordering `a ≤ b` on parsed datetimes, raising on mixed awareness. -/
def leDatetime (a b : Int × Bool) : Except Unit Bool :=
  if a.2 = b.2 then Except.ok (decide (a.1 ≤ b.1)) else Except.error ()

/-! ## Core aggregation (`summarize_by_type`) -/

/-- Defaulting `rec.get(k) or "Unknown"`: `None` and `""` default to `"Unknown"`. -/
def orUnknown : Option String → String
  | none => "Unknown"
  | some s => if s = "" then "Unknown" else s

/-- The type key the aggregator groups a record under. -/
def typeKey (r : Record) : String := orUnknown r.type

/-- The status key the aggregator counts a record under. -/
def statusKey (r : Record) : String := orUnknown r.status

/-- Running per-type accumulator: the dict the aggregation loop builds
(`total`, `status_counts`, `response_times_hours`). -/
structure RawStats where
  total : Nat
  status_counts : List (String × Nat)
  response_times_hours : List ℚ
deriving DecidableEq

def emptyRaw : RawStats := ⟨0, [], []⟩

/-- Counter increment `Counter[s] += 1`: update an existing key in place, append a new one. -/
def bumpCount : List (String × Nat) → String → List (String × Nat)
  | [], s => [(s, 1)]
  | (k, n) :: rest, s =>
      if k = s then (k, n + 1) :: rest else (k, n) :: bumpCount rest s

/-- The body of the aggregation loop for one record, on the non-raising
domain (instant view of the timestamps): bump `total` and the status
counter, then append `(closed − created)/3600` when both timestamps
parse, `closed > created`, and the delta is non-negative.  The raising
variant `updateEntryE` models the `TypeError` Python raises at
`closed > created` on a mixed naive/aware pair; the two agree whenever
the raising variant returns. -/
def updateEntry (st : RawStats) (rec : Record) : RawStats :=
  let st := { st with
    total := st.total + 1
    status_counts := bumpCount st.status_counts (statusKey rec) }
  match parse_datetime_iso rec.createddate, parse_datetime_iso rec.closeddate with
  | some c, some cl =>
      if c < cl then
        let delta : ℚ := ((cl - c : Int) : ℚ) / 3600
        if 0 ≤ delta then
          { st with response_times_hours := st.response_times_hours ++ [delta] }
        else st
      else st
  | _, _ => st

/-- Access `agg[t]` on the `defaultdict` followed by the loop body: the first
entry with key `t` is updated in place; a missing key appends a fresh
default entry at the end (CPython dict insertion order). -/
def updateAgg : List (String × RawStats) → String → Record → List (String × RawStats)
  | [], t, rec => [(t, updateEntry emptyRaw rec)]
  | (k, st) :: rest, t, rec =>
      if k = t then (k, updateEntry st rec) :: rest
      else (k, st) :: updateAgg rest t rec

/-- One iteration of `for rec in records`. -/
def stepRecord (agg : List (String × RawStats)) (rec : Record) : List (String × RawStats) :=
  updateAgg agg (typeKey rec) rec

/-- The aggregation loop over the whole subset. -/
def aggregate (records : List Record) : List (String × RawStats) :=
  records.foldl stepRecord []

/-- Finalized per-type statistics as `main` projects them:
`total`, `status_counts` and `avg_response_hours`. -/
structure TypeStats where
  total : Nat
  status_counts : List (String × Nat)
  avg_response_hours : Option ℚ
deriving DecidableEq

/-- The post-pass `stats["avg_response_hours"] = sum/len if times else None`. -/
def finalize (st : RawStats) : TypeStats :=
  ⟨st.total, st.status_counts,
    if st.response_times_hours = [] then none
    else some (st.response_times_hours.sum / (st.response_times_hours.length : ℚ))⟩

/-- The function `summarize_by_type(records)`: aggregate, then attach the average. -/
def summarize_by_type (records : List Record) : List (String × TypeStats) :=
  (aggregate records).map (fun p => (p.1, finalize p.2))

/-! ## Window selection (`main`) -/

/-- The predicate of each window comprehension on the non-raising
domain: `(d := parse_datetime_iso(r.get("createddate"))) and d >= now - dur`
(a parsed datetime is always truthy).  The raising variant
`withinWindowE` models the `TypeError` Python raises when `d` is naive
against the aware anchor; the two agree whenever the raising variant
returns. -/
def withinWindow (now dur : Int) (r : Record) : Bool :=
  match parse_datetime_iso r.createddate with
  | some d => decide (now - dur ≤ d)
  | none => false

/-- The ordered window list built in `main`, anchored at `now`
(durations in seconds: `timedelta(days=90)` … `timedelta(hours=4)`). -/
def windowsOf (records : List Record) (now : Int) : List (String × List Record) :=
  [("All-Time", records),
   ("Last 90 Days", records.filter (withinWindow now (90 * 86400))),
   ("Last 60 Days", records.filter (withinWindow now (60 * 86400))),
   ("Last 30 Days", records.filter (withinWindow now (30 * 86400))),
   ("Last 7 Days", records.filter (withinWindow now (7 * 86400))),
   ("Last 1 Days", records.filter (withinWindow now 86400)),
   ("Last 4 Hours", records.filter (withinWindow now (4 * 3600)))]

/-- The nested `summary_data` object `main` assembles: window label to
per-type statistics. -/
def summaryData (records : List Record) (now : Int) : List (String × List (String × TypeStats)) :=
  (windowsOf records now).map (fun p => (p.1, summarize_by_type p.2))

/-! ## The raising layer: Python's `TypeError` on naive/aware mixes

The functions above describe the program on the domain where every
ordering comparison between parsed datetimes is defined.  Python raises
an uncaught `TypeError` when a naive datetime meets an aware one: in
`main`'s window comprehensions (a naive `createddate` against the aware
anchor `datetime.now(timezone.utc)`) and in `summarize_by_type`'s
`closed > created`.  The `…E` functions below are the same code with
that error path modelled as `Except.error ()`. -/

/-- The window comprehension predicate with the comparison against the
aware anchor performed as Python performs it: raises when the parsed
`createddate` is naive. -/
def withinWindowE (now dur : Int) (r : Record) : Except Unit Bool :=
  match parse_datetime_aware r.createddate with
  | some d => leDatetime (now - dur, true) d
  | none => Except.ok false

/-- A Python list comprehension over a raising predicate: elements are
tested left to right and the first raise propagates. -/
def filterE {α : Type} (p : α → Except Unit Bool) : List α → Except Unit (List α)
  | [] => Except.ok []
  | x :: xs =>
      match p x with
      | Except.error e => Except.error e
      | Except.ok b =>
          match filterE p xs with
          | Except.error e => Except.error e
          | Except.ok rest => Except.ok (if b then x :: rest else rest)

/-- The window list exactly as `main` builds it, with each bounded
comprehension able to raise (evaluated in display order): one naive
parseable `createddate` aborts the whole construction before any
subsets are produced. -/
def windowsOfE (records : List Record) (now : Int) :
    Except Unit (List (String × List Record)) :=
  match filterE (withinWindowE now (90 * 86400)) records with
  | Except.error e => Except.error e
  | Except.ok w90 =>
  match filterE (withinWindowE now (60 * 86400)) records with
  | Except.error e => Except.error e
  | Except.ok w60 =>
  match filterE (withinWindowE now (30 * 86400)) records with
  | Except.error e => Except.error e
  | Except.ok w30 =>
  match filterE (withinWindowE now (7 * 86400)) records with
  | Except.error e => Except.error e
  | Except.ok w7 =>
  match filterE (withinWindowE now 86400) records with
  | Except.error e => Except.error e
  | Except.ok w1 =>
  match filterE (withinWindowE now (4 * 3600)) records with
  | Except.error e => Except.error e
  | Except.ok w4 =>
  Except.ok [("All-Time", records), ("Last 90 Days", w90), ("Last 60 Days", w60),
             ("Last 30 Days", w30), ("Last 7 Days", w7), ("Last 1 Days", w1),
             ("Last 4 Hours", w4)]

/-- The aggregation loop body with the `closed > created` comparison
performed as Python performs it: a mixed naive/aware pair raises. -/
def updateEntryE (st : RawStats) (rec : Record) : Except Unit RawStats :=
  let st := { st with
    total := st.total + 1
    status_counts := bumpCount st.status_counts (statusKey rec) }
  match parse_datetime_aware rec.createddate, parse_datetime_aware rec.closeddate with
  | some c, some cl =>
      match ltDatetime c cl with
      | Except.error e => Except.error e
      | Except.ok b =>
          if b then
            let delta : ℚ := ((cl.1 - c.1 : Int) : ℚ) / 3600
            if 0 ≤ delta then
              Except.ok { st with response_times_hours := st.response_times_hours ++ [delta] }
            else Except.ok st
          else Except.ok st
  | _, _ => Except.ok st

/-- The `defaultdict` access followed by the raising loop body. -/
def updateAggE : List (String × RawStats) → String → Record →
    Except Unit (List (String × RawStats))
  | [], t, rec =>
      match updateEntryE emptyRaw rec with
      | Except.error e => Except.error e
      | Except.ok e => Except.ok [(t, e)]
  | (k, st) :: rest, t, rec =>
      if k = t then
        (match updateEntryE st rec with
         | Except.error e => Except.error e
         | Except.ok e => Except.ok ((k, e) :: rest))
      else
        (match updateAggE rest t rec with
         | Except.error e => Except.error e
         | Except.ok rest' => Except.ok ((k, st) :: rest'))

/-- The aggregation loop with the raising comparison, record by record:
the first mixed naive/aware record aborts the pass. -/
def aggLoopE (agg : List (String × RawStats)) : List Record →
    Except Unit (List (String × RawStats))
  | [] => Except.ok agg
  | r :: rest =>
      match updateAggE agg (typeKey r) r with
      | Except.error e => Except.error e
      | Except.ok agg' => aggLoopE agg' rest

def aggregateE (records : List Record) : Except Unit (List (String × RawStats)) :=
  aggLoopE [] records

/-- The aggregator `summarize_by_type` with its real error path: a
record pairing a naive with an aware timestamp raises out of the
function instead of contributing. -/
def summarize_by_type_E (records : List Record) : Except Unit (List (String × TypeStats)) :=
  match aggregateE records with
  | Except.error e => Except.error e
  | Except.ok agg => Except.ok (agg.map (fun p => (p.1, finalize p.2)))

/-! ## Specification-side helpers used to state the claims -/

/-- First-match association-list lookup, the model of `d[k]`/`k in d` on a
Python dict rendered as an insertion-ordered association list. -/
def lookupKey {α : Type} (t : String) : List (String × α) → Option α
  | [] => none
  | (k, v) :: rest => if k = t then some v else lookupKey t rest

/-- A record qualifies for the response-time average: both timestamps
parse and the close is strictly after the creation. -/
def specQualifies (r : Record) : Bool :=
  match parse_datetime_iso r.createddate, parse_datetime_iso r.closeddate with
  | some c, some cl => decide (c < cl)
  | _, _ => false

/-- The response-time delta of a record, in hours (0 when unqualified;
only ever used under `specQualifies`). -/
def deltaOf (r : Record) : ℚ :=
  match parse_datetime_iso r.createddate, parse_datetime_iso r.closeddate with
  | some c, some cl => ((cl - c : Int) : ℚ) / 3600
  | _, _ => 0

/-- The qualifying response-time deltas of the records of type `t`, in
input order: the data the claimed average ranges over. -/
def qualDeltas (recs : List Record) (t : String) : List ℚ :=
  (recs.filter (fun r => typeKey r == t && specQualifies r)).map deltaOf

/-- Run the per-record loop body over a list of records. -/
def applyRecords (st : RawStats) (l : List Record) : RawStats :=
  l.foldl updateEntry st

/-- Fold the status counter over a list of records. -/
def foldStatus (c : List (String × Nat)) (l : List Record) : List (String × Nat) :=
  l.foldl (fun c r => bumpCount c (statusKey r)) c

/-- Sum of the multiplicities in a status counter. -/
def countsSum (c : List (String × Nat)) : Nat :=
  (c.map Prod.snd).sum

/-- Sum of the `total` fields across an aggregation map. -/
def sumTotals (agg : List (String × RawStats)) : Nat :=
  (agg.map (fun p => p.2.total)).sum

/-- The six bounded windows of the run, each with its lookback duration
in seconds (`timedelta(days=90)` … `timedelta(hours=4)`). -/
def boundedWindowDurations : List (String × Int) :=
  [("Last 90 Days", 90 * 86400), ("Last 60 Days", 60 * 86400),
   ("Last 30 Days", 30 * 86400), ("Last 7 Days", 7 * 86400),
   ("Last 1 Days", 86400), ("Last 4 Hours", 4 * 3600)]

/-! ## The record loader (`load_export_readonly`) -/

/-- JSON values, as `json.load` returns them. -/
inductive Json where
  | null
  | bool (b : Bool)
  | num (q : ℚ)
  | str (s : String)
  | arr (elems : List Json)
  | obj (fields : List (String × Json))

/-- The loader's shape dispatch:
`data["results"] if isinstance(data, dict) and "results" in data else data`. -/
def load_export_readonly (data : Json) : Json :=
  match data with
  | .obj fields =>
      match lookupKey "results" fields with
      | some v => v
      | none => .obj fields
  | d => d

/-- Modelled from the spec: the loader the specification describes, which
unwraps a labeled-list container, passes a bare list through, and fails
with a `FormatError` (here `none`) on every other shape.  This definition
follows the spec's words; the code's behaviour is `load_export_readonly`. -/
def load_export_spec (data : Json) : Option Json :=
  match data with
  | .obj fields => lookupKey "results" fields
  | .arr elems => some (.arr elems)
  | _ => none

/-! ## The durable writer (`write_json_atomically`) -/

/-- Visible filesystem state around one call of the writer: the content
at the destination path (`none` = absent) and at the temporary path. -/
structure FileState where
  dest : Option String
  tmp : Option String
deriving DecidableEq

/-- Where a call of the writer fails, if anywhere: during `json.dump`,
during `flush`/`fsync`, during `os.replace`, or nowhere. -/
inductive WriteOutcome where
  | success
  | failSerialize
  | failFlush
  | failRename
deriving DecidableEq

/-- The `finally` block: remove the temporary file if it still exists. -/
def cleanupTmp (fs : FileState) : FileState :=
  { fs with tmp := none }

/-- One call of `write_json_atomically`, step by step: create the
temporary file, serialize into it (on failure a partial prefix
`partContent` is on disk), flush, atomically rename over the
destination, and in every case run the `finally` cleanup.  The returned
`Bool` is `true` on normal return and `false` when the exception
propagates to the caller. -/
def write_json_atomically (fs : FileState) (content partContent : String)
    (o : WriteOutcome) : Bool × FileState :=
  let afterTmp : FileState := { fs with tmp := some "" }
  match o with
  | .failSerialize => (false, cleanupTmp { afterTmp with tmp := some partContent })
  | .failFlush => (false, cleanupTmp { afterTmp with tmp := some content })
  | .failRename => (false, cleanupTmp { afterTmp with tmp := some content })
  | .success =>
      let renamed : FileState := { dest := some content, tmp := none }
      (true, cleanupTmp renamed)

/-! ## Serialization of the Summary Document (for the idempotence claim) -/

/-- Render an optional average, `null` for `None`. -/
def renderAvg : Option ℚ → String
  | none => "null"
  | some q => toString q

/-- Render a status counter as a JSON object. -/
def renderCounts (c : List (String × Nat)) : String :=
  "\x7b" ++ String.intercalate ", "
    (c.map (fun p => "\"" ++ p.1 ++ "\": " ++ toString p.2)) ++ "\x7d"

/-- Render one per-type aggregate. -/
def renderStats (s : TypeStats) : String :=
  "\x7b\"total\": " ++ toString s.total ++
  ", \"status_counts\": " ++ renderCounts s.status_counts ++
  ", \"avg_response_hours\": " ++ renderAvg s.avg_response_hours ++ "\x7d"

/-- Render one window's `types` mapping. -/
def renderTypes (types : List (String × TypeStats)) : String :=
  "\x7b\"types\": \x7b" ++ String.intercalate ", "
    (types.map (fun p => "\"" ++ p.1 ++ "\": " ++ renderStats p.2)) ++ "\x7d\x7d"

/-- Deterministic serialization of the Summary Document (the model of
`json.dump` on `summary_data`: one fixed byte string per document). -/
def serializeSummary (doc : List (String × List (String × TypeStats))) : String :=
  "\x7b" ++ String.intercalate ", "
    (doc.map (fun p => "\"" ++ p.1 ++ "\": " ++ renderTypes p.2)) ++ "\x7d"

/-- The full pipeline of one run at a frozen anchor: select windows,
aggregate, assemble, serialize. -/
def runPipeline (records : List Record) (now : Int) : String :=
  serializeSummary (summaryData records now)

/-! ## Concrete records used by the end-to-end scenario and witnesses -/

/-- First record of the spec's end-to-end scenario. -/
def potholeClosed : Record :=
  ⟨some "Pothole", some "Closed", some "2025-01-01T00:00:00Z", some "2025-01-01T05:00:00Z"⟩

/-- Second record of the spec's end-to-end scenario (never closed). -/
def potholeOpen : Record :=
  ⟨some "Pothole", some "Open", some "2025-01-01T00:00:00Z", none⟩

/-- Epoch seconds of the scenario anchor `2025-01-02T00:00:00Z`. -/
def scenarioNow : Int := 1735776000

/-- A record pairing an aware `createddate` with a naive `closeddate`:
Python raises `TypeError` at `closed > created` on it. -/
def mixedRec : Record :=
  ⟨some "Pothole", some "Closed", some "2025-01-02T00:00:00Z", some "2025-01-01T00:00:00"⟩

/-- A record with a parseable naive `createddate`: Python raises
`TypeError` when comparing it against the aware window cutoff. -/
def naiveRec : Record :=
  ⟨some "Pothole", some "Open", some "2025-06-01T00:00:00", none⟩

/-! ## Helper lemmas -/

theorem lookupKey_map {α β : Type} (f : α → β) (t : String) (l : List (String × α)) :
    lookupKey t (l.map (fun p => (p.1, f p.2))) = (lookupKey t l).map f := by
  induction l with
  | nil => rfl
  | cons p rest ih =>
    obtain ⟨k, v⟩ := p
    by_cases h : k = t <;> simp [lookupKey, h, ih]

/-- The loop body in closed form: `total` is incremented, the status
counter is bumped, and the delta list grows exactly by the qualifying
delta (the code's extra `delta >= 0` guard is redundant given
`closed > created`). -/
theorem updateEntry_eq (st : RawStats) (rec : Record) :
    updateEntry st rec =
      ⟨st.total + 1, bumpCount st.status_counts (statusKey rec),
       st.response_times_hours ++ (if specQualifies rec then [deltaOf rec] else [])⟩ := by
  unfold updateEntry specQualifies deltaOf
  cases hc : parse_datetime_iso rec.createddate with
  | none => simp
  | some c =>
    cases hcl : parse_datetime_iso rec.closeddate with
    | none => simp
    | some cl =>
      by_cases hlt : c < cl
      · have hnn : (0 : ℚ) ≤ ((cl : ℚ) - (c : ℚ)) / 3600 := by
          apply div_nonneg _ (by norm_num)
          have hle : (c : ℚ) ≤ (cl : ℚ) := by exact_mod_cast le_of_lt hlt
          linarith
        simp [hlt, hnn]
      · simp [hlt]

theorem applyRecords_cons (st : RawStats) (r : Record) (l : List Record) :
    applyRecords st (r :: l) = applyRecords (updateEntry st r) l := rfl

theorem applyRecords_total (l : List Record) : ∀ st : RawStats,
    (applyRecords st l).total = st.total + l.length := by
  induction l with
  | nil => intro st; rfl
  | cons r l ih =>
    intro st
    rw [applyRecords_cons, ih, updateEntry_eq]
    simp only [List.length_cons]
    omega

theorem applyRecords_counts (l : List Record) : ∀ st : RawStats,
    (applyRecords st l).status_counts = foldStatus st.status_counts l := by
  induction l with
  | nil => intro st; rfl
  | cons r l ih =>
    intro st
    rw [applyRecords_cons, ih, updateEntry_eq]
    rfl

theorem applyRecords_times (l : List Record) : ∀ st : RawStats,
    (applyRecords st l).response_times_hours =
      st.response_times_hours ++ (l.filter specQualifies).map deltaOf := by
  induction l with
  | nil => intro st; simp [applyRecords]
  | cons r l ih =>
    intro st
    rw [applyRecords_cons, ih, updateEntry_eq]
    by_cases h : specQualifies r <;> simp [List.filter_cons, h]

theorem lookupKey_updateAgg (agg : List (String × RawStats)) (k : String) (rec : Record)
    (t : String) :
    lookupKey t (updateAgg agg k rec) =
      if k = t then some (updateEntry ((lookupKey t agg).getD emptyRaw) rec)
      else lookupKey t agg := by
  induction agg with
  | nil =>
    by_cases h : k = t <;> simp [updateAgg, lookupKey, h]
  | cons p rest ih =>
    obtain ⟨k', st⟩ := p
    by_cases h1 : k' = k
    · subst h1
      by_cases h2 : k' = t <;> simp [updateAgg, lookupKey, h2]
    · by_cases h2 : k' = t
      · subst h2
        have h1' : k ≠ k' := fun h => h1 h.symm
        simp [updateAgg, h1, lookupKey, h1']
      · simp [updateAgg, h1, h2, lookupKey, ih]

/-- Lookup after the whole aggregation loop, relative to any starting
accumulator: the entry for `t` is the starting entry updated by exactly
the records of type `t`, in order. -/
theorem lookupKey_foldl (recs : List Record) : ∀ (acc : List (String × RawStats)) (t : String),
    lookupKey t (List.foldl stepRecord acc recs) =
      if recs.filter (fun r => typeKey r == t) = [] then lookupKey t acc
      else some (applyRecords ((lookupKey t acc).getD emptyRaw)
                   (recs.filter (fun r => typeKey r == t))) := by
  induction recs with
  | nil => intro acc t; simp
  | cons r rest ih =>
    intro acc t
    rw [List.foldl_cons, ih (stepRecord acc r) t]
    by_cases h : typeKey r = t
    · have hstep : lookupKey t (stepRecord acc r) =
          some (updateEntry ((lookupKey t acc).getD emptyRaw) r) := by
        rw [stepRecord, lookupKey_updateAgg, if_pos h]
      have hfil : (r :: rest).filter (fun r => typeKey r == t) =
          r :: rest.filter (fun r => typeKey r == t) := by
        simp [List.filter_cons, h]
      rw [hfil, hstep]
      by_cases hrest : rest.filter (fun r => typeKey r == t) = [] <;>
        simp [hrest, applyRecords]
    · have hstep : lookupKey t (stepRecord acc r) = lookupKey t acc := by
        rw [stepRecord, lookupKey_updateAgg, if_neg h]
      have hfil : (r :: rest).filter (fun r => typeKey r == t) =
          rest.filter (fun r => typeKey r == t) := by
        simp [List.filter_cons, h]
      rw [hfil, hstep]

/-- Lookup in the aggregator's output, in closed form. -/
theorem lookupKey_aggregate (recs : List Record) (t : String) :
    lookupKey t (aggregate recs) =
      if recs.filter (fun r => typeKey r == t) = [] then none
      else some (applyRecords emptyRaw (recs.filter (fun r => typeKey r == t))) := by
  have h := lookupKey_foldl recs [] t
  simpa [aggregate, lookupKey] using h

theorem lookupKey_summarize (recs : List Record) (t : String) :
    lookupKey t (summarize_by_type recs) = (lookupKey t (aggregate recs)).map finalize :=
  lookupKey_map finalize t (aggregate recs)

theorem countsSum_bump (c : List (String × Nat)) (s : String) :
    countsSum (bumpCount c s) = countsSum c + 1 := by
  induction c with
  | nil => simp [bumpCount, countsSum]
  | cons p rest ih =>
    obtain ⟨k, n⟩ := p
    by_cases h : k = s <;> simp [bumpCount, h, countsSum] at ih ⊢ <;> omega

theorem countsSum_foldStatus (l : List Record) : ∀ c : List (String × Nat),
    countsSum (foldStatus c l) = countsSum c + l.length := by
  induction l with
  | nil => intro c; rfl
  | cons r l ih =>
    intro c
    have : foldStatus c (r :: l) = foldStatus (bumpCount c (statusKey r)) l := rfl
    rw [this, ih, countsSum_bump]
    simp only [List.length_cons]
    omega

theorem sumTotals_updateAgg (agg : List (String × RawStats)) (k : String) (rec : Record) :
    sumTotals (updateAgg agg k rec) = sumTotals agg + 1 := by
  induction agg with
  | nil => simp [updateAgg, sumTotals, updateEntry_eq, emptyRaw]
  | cons p rest ih =>
    obtain ⟨k', st⟩ := p
    by_cases h : k' = k <;> simp [updateAgg, h, sumTotals, updateEntry_eq] at ih ⊢ <;> omega

theorem sumTotals_foldl (recs : List Record) : ∀ acc : List (String × RawStats),
    sumTotals (List.foldl stepRecord acc recs) = sumTotals acc + recs.length := by
  induction recs with
  | nil => intro acc; rfl
  | cons r rest ih =>
    intro acc
    rw [List.foldl_cons, ih, stepRecord, sumTotals_updateAgg]
    simp only [List.length_cons]
    omega

theorem withinWindow_iff (now dur : Int) (r : Record) :
    withinWindow now dur r = true ↔
      ∃ d, parse_datetime_iso r.createddate = some d ∧ now - dur ≤ d := by
  unfold withinWindow
  cases h : parse_datetime_iso r.createddate <;> simp

/-- The bounded-window comprehension in closed form: an order-preserving
selection of exactly the parseable records on or after the cutoff. -/
theorem windowFilter_spec (records : List Record) (now dur : Int) :
    (records.filter (withinWindow now dur)).Sublist records ∧
    ∀ r, r ∈ records.filter (withinWindow now dur) ↔
      r ∈ records ∧ ∃ d, parse_datetime_iso r.createddate = some d ∧ now - dur ≤ d := by
  refine ⟨List.filter_sublist records, fun r => ?_⟩
  rw [List.mem_filter, withinWindow_iff]

/-- When the raising window predicate returns, it agrees with the total
one. -/
theorem withinWindowE_ok (now dur : Int) (r : Record) (b : Bool)
    (h : withinWindowE now dur r = Except.ok b) : withinWindow now dur r = b := by
  unfold withinWindowE at h
  cases hp : parse_datetime_aware r.createddate with
  | none =>
    rw [hp] at h
    simp only [Except.ok.injEq] at h
    simp [withinWindow, parse_datetime_iso, hp, ← h]
  | some d =>
    obtain ⟨di, da⟩ := d
    rw [hp] at h
    unfold leDatetime at h
    cases da with
    | false => simp at h
    | true =>
      simp at h
      simpa [withinWindow, parse_datetime_iso, hp] using h

/-- When a raising comprehension returns, it is the total filter. -/
theorem filterE_ok {α : Type} {p : α → Except Unit Bool} {q : α → Bool}
    (hpq : ∀ x b, p x = Except.ok b → q x = b) :
    ∀ (l out : List α), filterE p l = Except.ok out → out = l.filter q := by
  intro l
  induction l with
  | nil =>
    intro out h
    simp only [filterE, Except.ok.injEq] at h
    simp [← h]
  | cons x xs ih =>
    intro out h
    unfold filterE at h
    cases hb : p x with
    | error e => rw [hb] at h; exact absurd h (by simp)
    | ok b =>
      rw [hb] at h
      cases hr : filterE p xs with
      | error e => rw [hr] at h; exact absurd h (by simp)
      | ok rest =>
        rw [hr] at h
        simp only [Except.ok.injEq] at h
        rw [← h, List.filter_cons, hpq x b hb, ih rest hr]

/-- When the raising window construction returns, it is exactly the
total `windowsOf` list. -/
theorem windowsOfE_ok (records : List Record) (now : Int)
    (ws : List (String × List Record)) (h : windowsOfE records now = Except.ok ws) :
    ws = windowsOf records now := by
  unfold windowsOfE at h
  cases h90 : filterE (withinWindowE now (90 * 86400)) records with
  | error e => rw [h90] at h; exact absurd h (by simp)
  | ok w90 =>
  rw [h90] at h
  cases h60 : filterE (withinWindowE now (60 * 86400)) records with
  | error e => rw [h60] at h; exact absurd h (by simp)
  | ok w60 =>
  rw [h60] at h
  cases h30 : filterE (withinWindowE now (30 * 86400)) records with
  | error e => rw [h30] at h; exact absurd h (by simp)
  | ok w30 =>
  rw [h30] at h
  cases h7 : filterE (withinWindowE now (7 * 86400)) records with
  | error e => rw [h7] at h; exact absurd h (by simp)
  | ok w7 =>
  rw [h7] at h
  cases h1 : filterE (withinWindowE now 86400) records with
  | error e => rw [h1] at h; exact absurd h (by simp)
  | ok w1 =>
  rw [h1] at h
  cases h4 : filterE (withinWindowE now (4 * 3600)) records with
  | error e => rw [h4] at h; exact absurd h (by simp)
  | ok w4 =>
  rw [h4] at h
  simp only [Except.ok.injEq] at h
  rw [← h, windowsOf,
    filterE_ok (withinWindowE_ok now (90 * 86400)) records w90 h90,
    filterE_ok (withinWindowE_ok now (60 * 86400)) records w60 h60,
    filterE_ok (withinWindowE_ok now (30 * 86400)) records w30 h30,
    filterE_ok (withinWindowE_ok now (7 * 86400)) records w7 h7,
    filterE_ok (withinWindowE_ok now 86400) records w1 h1,
    filterE_ok (withinWindowE_ok now (4 * 3600)) records w4 h4]

/-- When the raising loop body returns, it agrees with the total one. -/
theorem updateEntryE_ok (st : RawStats) (r : Record) (e : RawStats)
    (h : updateEntryE st r = Except.ok e) : e = updateEntry st r := by
  rw [updateEntry_eq]
  cases hc : parse_datetime_aware r.createddate with
  | none =>
    simp only [updateEntryE, hc, Except.ok.injEq] at h
    simp [← h, specQualifies, parse_datetime_iso, hc]
  | some c =>
    cases hcl : parse_datetime_aware r.closeddate with
    | none =>
      simp only [updateEntryE, hc, hcl, Except.ok.injEq] at h
      simp [← h, specQualifies, parse_datetime_iso, hc, hcl]
    | some cl =>
      simp only [updateEntryE, hc, hcl] at h
      cases hcmp : ltDatetime c cl with
      | error e2 => rw [hcmp] at h; exact absurd h (by simp)
      | ok b =>
        simp only [hcmp] at h
        have hcc : decide (c.1 < cl.1) = b := by
          unfold ltDatetime at hcmp
          by_cases ha : c.2 = cl.2
          · rw [if_pos ha] at hcmp
            simpa using hcmp
          · rw [if_neg ha] at hcmp
            exact absurd hcmp (by simp)
        have hqs : specQualifies r = decide (c.1 < cl.1) := by
          simp [specQualifies, parse_datetime_iso, hc, hcl]
        cases b with
        | false =>
          simp only [Bool.false_eq_true, if_false, Except.ok.injEq] at h
          rw [← h, hqs, hcc]
          simp
        | true =>
          have hlt : c.1 < cl.1 := of_decide_eq_true hcc
          have hnn : (0 : ℚ) ≤ ((cl.1 - c.1 : Int) : ℚ) / 3600 := by
            apply div_nonneg _ (by norm_num)
            have hle : (0 : Int) ≤ cl.1 - c.1 := by omega
            exact_mod_cast hle
          rw [if_pos rfl, if_pos hnn] at h
          simp only [Except.ok.injEq] at h
          rw [← h, hqs, hcc]
          simp [deltaOf, parse_datetime_iso, hc, hcl]

/-- When the raising `defaultdict` update returns, it agrees with the
total one. -/
theorem updateAggE_ok : ∀ (agg : List (String × RawStats)) (t : String) (r : Record)
    (out : List (String × RawStats)),
    updateAggE agg t r = Except.ok out → out = updateAgg agg t r := by
  intro agg
  induction agg with
  | nil =>
    intro t r out h
    simp only [updateAggE] at h
    cases he : updateEntryE emptyRaw r with
    | error e => rw [he] at h; exact absurd h (by simp)
    | ok e =>
      simp only [he, Except.ok.injEq] at h
      rw [← h, updateAgg, updateEntryE_ok emptyRaw r e he]
  | cons p rest ih =>
    intro t r out h
    obtain ⟨k, st⟩ := p
    simp only [updateAggE] at h
    by_cases hk : k = t
    · rw [if_pos hk] at h
      cases he : updateEntryE st r with
      | error e => rw [he] at h; exact absurd h (by simp)
      | ok e =>
        simp only [he, Except.ok.injEq] at h
        rw [← h, updateAgg, if_pos hk, updateEntryE_ok st r e he]
    · rw [if_neg hk] at h
      cases hr : updateAggE rest t r with
      | error e => rw [hr] at h; exact absurd h (by simp)
      | ok rest' =>
        simp only [hr, Except.ok.injEq] at h
        rw [← h, updateAgg, if_neg hk, ih t r rest' hr]

/-- When the raising aggregation pass returns, it is the total
aggregation of the same records. -/
theorem aggLoopE_ok : ∀ (recs : List Record) (acc : List (String × RawStats))
    (out : List (String × RawStats)),
    aggLoopE acc recs = Except.ok out → out = List.foldl stepRecord acc recs := by
  intro recs
  induction recs with
  | nil =>
    intro acc out h
    simp only [aggLoopE, Except.ok.injEq] at h
    simp [← h]
  | cons r rest ih =>
    intro acc out h
    unfold aggLoopE at h
    cases ha : updateAggE acc (typeKey r) r with
    | error e => rw [ha] at h; exact absurd h (by simp)
    | ok acc' =>
      simp only [ha] at h
      rw [List.foldl_cons, stepRecord, ← updateAggE_ok acc (typeKey r) r acc' ha]
      exact ih acc' out h

theorem aggregateE_ok (recs : List Record) (out : List (String × RawStats))
    (h : aggregateE recs = Except.ok out) : out = aggregate recs :=
  aggLoopE_ok recs [] out h

theorem summarizeE_ok (recs : List Record) (out : List (String × TypeStats))
    (h : summarize_by_type_E recs = Except.ok out) : out = summarize_by_type recs := by
  unfold summarize_by_type_E at h
  cases ha : aggregateE recs with
  | error e => rw [ha] at h; exact absurd h (by simp)
  | ok agg =>
    rw [ha] at h
    simp only [Except.ok.injEq] at h
    rw [← h, summarize_by_type, ← aggregateE_ok recs agg ha]

/-! ## The claims -/

/-- C1: for every prior filesystem state, document content and failure
point, `write_json_atomically` leaves the destination bit-identical to
its prior content on any failure during serialization, flush or rename
(absent if it was absent), removes the temporary file in every case,
propagates the exception exactly on failure, and on success leaves the
complete serialized document at the destination. -/
theorem c1_atomic_write (fs : FileState) (content partContent : String) (o : WriteOutcome) :
    (write_json_atomically fs content partContent o).2.tmp = none ∧
    ((write_json_atomically fs content partContent o).1 = true ↔ o = WriteOutcome.success) ∧
    (write_json_atomically fs content partContent o).2.dest =
      (if o = WriteOutcome.success then some content else fs.dest) := by
  cases o <;> simp [write_json_atomically, cleanupTmp]

/-- C2 counterexample: on a top-level dict that lacks the `"results"`
field, `load_export_readonly` returns the dict unchanged — a normal
return, where the claim demands a `FormatError` failure (the
spec-modelled loader `load_export_spec` indeed fails there). -/
theorem c2_loader_counterexample :
    load_export_readonly (Json.obj [("other", Json.null)]) = Json.obj [("other", Json.null)] ∧
    load_export_spec (Json.obj [("other", Json.null)]) = none :=
  ⟨rfl, rfl⟩

/-- C2 (amended): the loader returns the `"results"` field when the top
level is a dict containing it, and returns the parsed value unchanged in
every other case (bare list, dict without the field, or scalar); it
never fails. -/
theorem c2_loader_amended (data : Json) :
    load_export_readonly data =
      (match data with
       | Json.obj fields => (lookupKey "results" fields).getD (Json.obj fields)
       | d => d) := by
  cases data with
  | obj fields =>
    cases h : lookupKey "results" fields <;> simp [load_export_readonly, h]
  | _ => rfl

/-- C3 counterexample: a record pairing an aware `createddate` with a
parseable naive `closeddate` makes `summarize_by_type` raise `TypeError`
at `closed > created` — an exception, where the claim promises a null
average and no exception (no record qualifies here, since the comparison
raises instead of qualifying the pair). -/
theorem c3_avg_response_counterexample :
    parse_datetime_aware mixedRec.createddate = some (1735776000, true) ∧
    parse_datetime_aware mixedRec.closeddate = some (1735689600, false) ∧
    summarize_by_type_E [mixedRec] = Except.error () :=
  ⟨rfl, rfl, rfl⟩

/-- C3 (amended): whenever the aggregation pass returns (no record of
the subset pairs a naive timestamp with an aware one at the
`closed > created` comparison), `avg_response_hours` of every listed
type `t` equals the arithmetic mean, in hours, of the deltas of exactly
the records of type `t` whose two timestamps are present, parseable,
and strictly increasing — and it is `none` (not 0) when no record of
that type qualifies.  A mixed naive/aware record instead raises
`TypeError` out of the aggregator. -/
theorem c3_avg_response_spec (recs : List Record) (out : List (String × TypeStats))
    (t : String) (stats : TypeStats)
    (hok : summarize_by_type_E recs = Except.ok out)
    (h : lookupKey t out = some stats) :
    stats.avg_response_hours =
      (if qualDeltas recs t = [] then none
       else some ((qualDeltas recs t).sum / ((qualDeltas recs t).length : ℚ))) := by
  obtain rfl : out = summarize_by_type recs := summarizeE_ok recs out hok
  rw [lookupKey_summarize, lookupKey_aggregate] at h
  by_cases hfil : recs.filter (fun r => typeKey r == t) = []
  · rw [if_pos hfil] at h
    simp at h
  · rw [if_neg hfil] at h
    simp only [Option.map_some', Option.some.injEq] at h
    subst h
    have htimes :
        (applyRecords emptyRaw (recs.filter (fun r => typeKey r == t))).response_times_hours =
          qualDeltas recs t := by
      rw [applyRecords_times]
      simp only [emptyRaw, List.nil_append, qualDeltas, List.filter_filter]
      congr 1
      apply List.filter_congr
      intro a _
      exact Bool.and_comm (specQualifies a) (typeKey a == t)
    simp only [finalize, htimes]

/-- C3 witness: a single never-closed record aggregates without raising
and yields a `"Pothole"` entry whose average is `none`, as the
qualifying-delta list is empty. -/
theorem c3_avg_response_spec_witness :
    (⟨1, [("Open", 1)], none⟩ : TypeStats).avg_response_hours =
      (if qualDeltas [potholeOpen] "Pothole" = [] then none
       else some ((qualDeltas [potholeOpen] "Pothole").sum /
                  ((qualDeltas [potholeOpen] "Pothole").length : ℚ))) :=
  c3_avg_response_spec [potholeOpen] [("Pothole", ⟨1, [("Open", 1)], none⟩)] "Pothole"
    ⟨1, [("Open", 1)], none⟩ (by rfl) (by rfl)

/-- C4 counterexample: one record with a parseable naive `createddate`
makes the first bounded-window comprehension raise `TypeError` against
the aware anchor, so the run produces no window subsets at all — where
the claim asserts the seven windows are always evaluated. -/
theorem c4_window_counterexample :
    parse_datetime_aware naiveRec.createddate = some (1748736000, false) ∧
    windowsOfE [naiveRec] scenarioNow = Except.error () :=
  ⟨rfl, rfl⟩

/-- C4 (amended): whenever the window construction returns (every
parseable `createddate` carries a UTC offset), the run evaluates
exactly the ordered window list All-Time, 90d, 60d, 30d, 7d, 1d, 4h;
the All-Time subset is the whole record list (including records with
absent or unparseable `createddate`), and each bounded window's subset
is an order-preserving selection of exactly the records whose
`createddate` parses to a timestamp at or after `now` minus that
window's duration.  A parseable naive `createddate` instead raises
`TypeError` before any subsets are produced. -/
theorem c4_window_lineup (records : List Record) (now : Int)
    (ws : List (String × List Record)) (label : String) (dur : Int)
    (hok : windowsOfE records now = Except.ok ws)
    (h : (label, dur) ∈ boundedWindowDurations) :
    ws.map Prod.fst =
      ["All-Time", "Last 90 Days", "Last 60 Days", "Last 30 Days",
       "Last 7 Days", "Last 1 Days", "Last 4 Hours"] ∧
    lookupKey "All-Time" ws = some records ∧
    ∃ subset, lookupKey label ws = some subset ∧
      subset.Sublist records ∧
      ∀ r, r ∈ subset ↔ r ∈ records ∧
        ∃ d, parse_datetime_iso r.createddate = some d ∧ now - dur ≤ d := by
  obtain rfl : ws = windowsOf records now := windowsOfE_ok records now ws hok
  refine ⟨by simp [windowsOf], by simp [windowsOf, lookupKey], ?_⟩
  simp only [boundedWindowDurations, List.mem_cons, List.not_mem_nil, or_false] at h
  rcases h with h | h | h | h | h | h <;>
    (rw [Prod.mk.injEq] at h; obtain ⟨rfl, rfl⟩ := h) <;>
    exact ⟨_, by simp [windowsOf, lookupKey], (windowFilter_spec records now _).1,
      (windowFilter_spec records now _).2⟩

/-- C4 witness, at the 90-day window over an empty record list, whose
window construction returns. -/
theorem c4_window_lineup_witness :
    ([("All-Time", ([] : List Record)), ("Last 90 Days", []), ("Last 60 Days", []),
      ("Last 30 Days", []), ("Last 7 Days", []), ("Last 1 Days", []),
      ("Last 4 Hours", [])].map Prod.fst =
      ["All-Time", "Last 90 Days", "Last 60 Days", "Last 30 Days",
       "Last 7 Days", "Last 1 Days", "Last 4 Hours"]) ∧
    lookupKey "All-Time"
      [("All-Time", ([] : List Record)), ("Last 90 Days", []), ("Last 60 Days", []),
       ("Last 30 Days", []), ("Last 7 Days", []), ("Last 1 Days", []),
       ("Last 4 Hours", [])] = some [] ∧
    ∃ subset, lookupKey "Last 90 Days"
        [("All-Time", ([] : List Record)), ("Last 90 Days", []), ("Last 60 Days", []),
         ("Last 30 Days", []), ("Last 7 Days", []), ("Last 1 Days", []),
         ("Last 4 Hours", [])] = some subset ∧
      subset.Sublist [] ∧
      ∀ r, r ∈ subset ↔ r ∈ ([] : List Record) ∧
        ∃ d, parse_datetime_iso r.createddate = some d ∧ 0 - 90 * 86400 ≤ d :=
  c4_window_lineup [] 0
    [("All-Time", []), ("Last 90 Days", []), ("Last 60 Days", []), ("Last 30 Days", []),
     ("Last 7 Days", []), ("Last 1 Days", []), ("Last 4 Hours", [])]
    "Last 90 Days" (90 * 86400) (by rfl) (by simp [boundedWindowDurations])

/-- C5: for any two lookback durations `d1 ≤ d2` and fixed anchor `now`,
every record selected by the shorter window is selected by the longer
one, and every selected record is in the full (All-Time) list. -/
theorem c5_window_monotone (records : List Record) (now d1 d2 : Int) (r : Record)
    (h : d1 ≤ d2) (hr : r ∈ records.filter (withinWindow now d1)) :
    r ∈ records.filter (withinWindow now d2) ∧ r ∈ records := by
  obtain ⟨hmem, d, hparse, hle⟩ := ((windowFilter_spec records now d1).2 r).mp hr
  refine ⟨((windowFilter_spec records now d2).2 r).mpr ⟨hmem, d, hparse, ?_⟩, hmem⟩
  omega

/-- C5 witness: the 4-hour selection is inside the 1-day selection at a
concrete anchor. -/
theorem c5_window_monotone_witness :
    potholeOpen ∈ [potholeOpen].filter (withinWindow 1735689600 86400) ∧
    potholeOpen ∈ [potholeOpen] :=
  c5_window_monotone [potholeOpen] 1735689600 14400 86400 potholeOpen (by norm_num) (by decide)

/-- C6: for every window subset handed to the aggregator, the `total`
fields summed over all types equal the subset's length. -/
theorem c6_total_conservation (records : List Record) :
    ((summarize_by_type records).map (fun p => p.2.total)).sum = records.length := by
  have h1 : (summarize_by_type records).map (fun p => p.2.total) =
      (aggregate records).map (fun p => p.2.total) := by
    simp only [summarize_by_type, List.map_map]
    rfl
  have h2 := sumTotals_foldl records []
  rw [h1]
  simpa [aggregate, sumTotals] using h2

/-- C7: the pipeline (select, aggregate, assemble, serialize) is a
deterministic function of the snapshot and the frozen anchor: equal
inputs give identical window subsets and a byte-identical serialized
Summary Document. -/
theorem c7_pipeline_deterministic (r1 r2 : List Record) (n1 n2 : Int)
    (hr : r1 = r2) (hn : n1 = n2) :
    (windowsOf r1 n1).map Prod.snd = (windowsOf r2 n2).map Prod.snd ∧
    runPipeline r1 n1 = runPipeline r2 n2 := by
  subst hr
  subst hn
  exact ⟨rfl, rfl⟩

/-- C7 witness: two runs on the same one-record snapshot and anchor. -/
theorem c7_pipeline_deterministic_witness :
    (windowsOf [potholeOpen] 0).map Prod.snd = (windowsOf [potholeOpen] 0).map Prod.snd ∧
    runPipeline [potholeOpen] 0 = runPipeline [potholeOpen] 0 :=
  c7_pipeline_deterministic [potholeOpen] [potholeOpen] 0 0 rfl rfl

/-- C8: a record whose `createddate` or `closeddate` is absent or
unparseable never aborts aggregation: its type's entry still gains one
`total` and one status count, its response-time list is untouched, and
every other type's entry is exactly what it would have been without the
record. -/
theorem c8_malformed_timestamp_nonfatal (recs : List Record) (r : Record)
    (h : parse_datetime_iso r.createddate = none ∨ parse_datetime_iso r.closeddate = none) :
    lookupKey (typeKey r) (aggregate (recs ++ [r])) =
      some ⟨((lookupKey (typeKey r) (aggregate recs)).getD emptyRaw).total + 1,
            bumpCount ((lookupKey (typeKey r) (aggregate recs)).getD emptyRaw).status_counts
              (statusKey r),
            ((lookupKey (typeKey r) (aggregate recs)).getD emptyRaw).response_times_hours⟩ ∧
    ∀ t, t ≠ typeKey r → lookupKey t (aggregate (recs ++ [r])) = lookupKey t (aggregate recs) := by
  have hq : specQualifies r = false := by
    unfold specQualifies
    rcases h with h | h
    · rw [h]
    · rw [h]
      cases parse_datetime_iso r.createddate <;> rfl
  constructor
  · have hfil : (recs ++ [r]).filter (fun x => typeKey x == typeKey r) =
        recs.filter (fun x => typeKey x == typeKey r) ++ [r] := by
      simp [List.filter_append]
    rw [lookupKey_aggregate, hfil, if_neg (by simp), applyRecords, List.foldl_append]
    have happly : List.foldl updateEntry
        (List.foldl updateEntry emptyRaw (recs.filter (fun x => typeKey x == typeKey r))) [r] =
        updateEntry (applyRecords emptyRaw (recs.filter (fun x => typeKey x == typeKey r))) r :=
      rfl
    rw [happly, updateEntry_eq, hq]
    rw [lookupKey_aggregate]
    by_cases hrecs : recs.filter (fun x => typeKey x == typeKey r) = [] <;>
      simp [hrecs, applyRecords, emptyRaw]
  · intro t ht
    have hne : (typeKey r == t) = false := by
      simp [Ne.symm ht]
    have hfil : (recs ++ [r]).filter (fun x => typeKey x == t) =
        recs.filter (fun x => typeKey x == t) := by
      simp [List.filter_append, hne]
    rw [lookupKey_aggregate, lookupKey_aggregate, hfil]

/-- C8 witness: appending a never-closed record to an empty prefix. -/
theorem c8_malformed_timestamp_nonfatal_witness :
    lookupKey (typeKey potholeOpen) (aggregate ([] ++ [potholeOpen])) =
      some ⟨((lookupKey (typeKey potholeOpen) (aggregate [])).getD emptyRaw).total + 1,
            bumpCount ((lookupKey (typeKey potholeOpen) (aggregate [])).getD emptyRaw).status_counts
              (statusKey potholeOpen),
            ((lookupKey (typeKey potholeOpen) (aggregate [])).getD emptyRaw).response_times_hours⟩ ∧
    ∀ t, t ≠ typeKey potholeOpen →
      lookupKey t (aggregate ([] ++ [potholeOpen])) = lookupKey t (aggregate []) :=
  c8_malformed_timestamp_nonfatal [] potholeOpen (Or.inr rfl)

/-- C9: the spec's end-to-end scenario.  With the two Pothole records
and the anchor `2025-01-02T00:00:00Z`, the run's All-Time entry is the
aggregation of both records, and its Pothole aggregate is exactly
`total = 2`, `status_counts = (Closed 1, Open 1)`,
`avg_response_hours = 5`. -/
theorem c9_end_to_end_scenario :
    lookupKey "All-Time" (summaryData [potholeClosed, potholeOpen] scenarioNow) =
      some (summarize_by_type [potholeClosed, potholeOpen]) ∧
    lookupKey "Pothole" (summarize_by_type [potholeClosed, potholeOpen]) =
      some ⟨2, [("Closed", 1), ("Open", 1)], some 5⟩ := by
  constructor
  · rfl
  · have h1 : parse_datetime_iso (some "2025-01-01T00:00:00Z") = some 1735689600 := by decide
    have h2 : parse_datetime_iso (some "2025-01-01T05:00:00Z") = some 1735707600 := by decide
    have h3 : parse_datetime_iso (none : Option String) = none := rfl
    simp only [summarize_by_type, aggregate, List.foldl_cons, List.foldl_nil, stepRecord,
      updateAgg, updateEntry, emptyRaw, typeKey, statusKey, orUnknown, bumpCount, finalize,
      potholeClosed, potholeOpen, h1, h2, h3, lookupKey, List.map_cons, List.map_nil]
    norm_num
    decide

/-- C10: every type listed in the aggregator's output has status counts
summing exactly to its `total`, and a `total` of at least 1. -/
theorem c10_status_counts_invariant (recs : List Record) (t : String) (stats : TypeStats)
    (h : lookupKey t (summarize_by_type recs) = some stats) :
    countsSum stats.status_counts = stats.total ∧ 1 ≤ stats.total := by
  rw [lookupKey_summarize, lookupKey_aggregate] at h
  by_cases hfil : recs.filter (fun r => typeKey r == t) = []
  · rw [if_pos hfil] at h
    simp at h
  · rw [if_neg hfil] at h
    simp only [Option.map_some', Option.some.injEq] at h
    subst h
    have hlen : 0 < (recs.filter (fun r => typeKey r == t)).length :=
      List.length_pos.mpr hfil
    refine ⟨?_, ?_⟩
    · show countsSum (applyRecords emptyRaw _).status_counts = (applyRecords emptyRaw _).total
      rw [applyRecords_counts, applyRecords_total, countsSum_foldStatus]
      simp [emptyRaw, countsSum]
    · show 1 ≤ (applyRecords emptyRaw _).total
      rw [applyRecords_total]
      simp [emptyRaw]
      omega

/-- C10 witness: the single-record aggregate has one status count and
total 1. -/
theorem c10_status_counts_invariant_witness :
    countsSum (⟨1, [("Open", 1)], none⟩ : TypeStats).status_counts =
      (⟨1, [("Open", 1)], none⟩ : TypeStats).total ∧
    1 ≤ (⟨1, [("Open", 1)], none⟩ : TypeStats).total :=
  c10_status_counts_invariant [potholeOpen] "Pothole" ⟨1, [("Open", 1)], none⟩ (by decide)
